import Mathlib

/-!
Verification of the `exec_agent` tool-calling agent core against its design
document.  The Python sources under `src/exec_agent/src/exec_agent/` are
shallowly embedded: JSON-like backend payloads become an inductive `Py` type,
Python attribute/key access with a default becomes `getAttr`, Python
truthiness becomes `truthy`, and code paths that can raise (iterating a
non-iterable, indexing a dict with an integer key) run in `Except String`.
The asynchronous transports and capabilities are modelled as explicit
function parameters; everything else is a direct transcription of the source.
-/

namespace ExecAgent

/-- Python values as they occur in backend payloads and tool arguments
(JSON-decoded data: dict keys are strings).  `none` is Python `None`. -/
inductive Py where
  | none : Py
  | bool : Bool → Py
  | int : Int → Py
  | str : String → Py
  | list : List Py → Py
  | dict : List (String × Py) → Py

/-- Python truthiness for the payload values above. -/
def truthy : Py → Bool
  | .none => false
  | .bool b => b
  | .int n => n != 0
  | .str s => s != ""
  | .list xs => !xs.isEmpty
  | .dict kvs => !kvs.isEmpty

/-- Python `str.strip()` with no argument: drop leading and trailing
whitespace. -/
def pyStrip (s : String) : String :=
  String.mk (((s.toList.dropWhile Char.isWhitespace).reverse.dropWhile
    Char.isWhitespace).reverse)

/-- `dict.get(key)` with Python's `None` default: first matching key wins. -/
def dictGet : List (String × Py) → String → Py
  | [], _ => .none
  | (k, v) :: rest, key => if k == key then v else dictGet rest key

/-- `_get_attr(obj, name, default)` from `agent/runner.py`: dicts use
`.get(name, default)`; the remaining payload values carry none of the
attribute names the runner reads, so `getattr` falls back to the default. -/
def getAttr (obj : Py) (name : String) (default : Py) : Py :=
  match obj with
  | .dict kvs => match kvs.find? (fun kv => kv.1 == name) with
    | some kv => kv.2
    | Option.none => default
  | _ => default

/-- Python `a or b` over payload values: `a` when truthy, else `b`. -/
def pyOr (a b : Py) : Py := if truthy a then a else b

mutual
/-- `str(x)` for payload values (`repr` is used for elements of containers). -/
def pyStr : Py → String
  | .none => "None"
  | .bool true => "True"
  | .bool false => "False"
  | .int n => toString n
  | .str s => s
  | .list xs => "[" ++ String.intercalate ", " (pyReprList xs) ++ "]"
  | .dict kvs => "\x7b" ++ String.intercalate ", " (pyReprDict kvs) ++ "\x7d"

def pyRepr : Py → String
  | .str s => "'" ++ s ++ "'"
  | v => pyStr v

def pyReprList : List Py → List String
  | [] => []
  | v :: rest => pyRepr v :: pyReprList rest

def pyReprDict : List (String × Py) → List String
  | [] => []
  | (k, v) :: rest => ("'" ++ k ++ "': " ++ pyRepr v) :: pyReprDict rest
end

/-- `iter(x)`: lists yield elements, strings yield one-character strings,
dicts yield their keys; the rest raise `TypeError`. -/
def pyIter : Py → Except String (List Py)
  | .list xs => .ok xs
  | .str s => .ok (s.toList.map (fun c => .str (String.singleton c)))
  | .dict kvs => .ok (kvs.map (fun kv => .str kv.1))
  | _ => .error "TypeError: object is not iterable"

/-- `x[0]`: lists and strings index positionally; a (string-keyed) dict has
no key `0` and raises `KeyError`; the rest raise `TypeError`. -/
def pyIndex0 : Py → Except String Py
  | .list [] => .error "IndexError: list index out of range"
  | .list (x :: _) => .ok x
  | .str s => match s.toList with
    | [] => .error "IndexError: string index out of range"
    | c :: _ => .ok (.str (String.singleton c))
  | .dict _ => .error "KeyError: 0"
  | _ => .error "TypeError: object is not subscriptable"

mutual
/-- `json.dumps(value, ensure_ascii=True)` restricted to the payload values
above (the strings the agent serializes contain no characters needing
escapes beyond quote and backslash). -/
def jsonDumps : Py → String
  | .none => "null"
  | .bool true => "true"
  | .bool false => "false"
  | .int n => toString n
  | .str s => "\"" ++ jsonEscape s.toList ++ "\""
  | .list xs => "[" ++ String.intercalate ", " (jsonDumpsList xs) ++ "]"
  | .dict kvs => "\x7b" ++ String.intercalate ", " (jsonDumpsDict kvs) ++ "\x7d"

def jsonDumpsList : List Py → List String
  | [] => []
  | v :: rest => jsonDumps v :: jsonDumpsList rest

def jsonDumpsDict : List (String × Py) → List String
  | [] => []
  | (k, v) :: rest =>
      ("\"" ++ jsonEscape k.toList ++ "\": " ++ jsonDumps v) :: jsonDumpsDict rest

def jsonEscape : List Char → String
  | [] => ""
  | c :: rest =>
      (if c == '"' then "\\\"" else if c == '\\' then "\\\\" else String.singleton c)
        ++ jsonEscape rest
end

/-- JSON whitespace skipping for the `json.loads` model. -/
def skipWs : List Char → List Char
  | c :: rest => if c == ' ' || c == '\t' || c == '\n' || c == '\r' then skipWs rest else c :: rest
  | [] => []

/-- Parse the body of a JSON string literal (after the opening quote),
returning the decoded text and the input past the closing quote.  Escapes
are the simple ones; none of the agent's data uses `\u` sequences. -/
def parseJsonString : List Char → Option (String × List Char)
  | [] => Option.none
  | '"' :: rest => some ("", rest)
  | '\\' :: e :: rest =>
      (match e with
       | '"' => some "\""
       | '\\' => some "\\"
       | '/' => some "/"
       | 'n' => some "\n"
       | 't' => some "\t"
       | 'r' => some "\r"
       | _ => Option.none).bind fun (c : String) =>
        (parseJsonString rest).map fun (sr : String × List Char) => (c ++ sr.1, sr.2)
  | '\\' :: [] => Option.none
  | c :: rest => (parseJsonString rest).map fun sr => (String.singleton c ++ sr.1, sr.2)

/-- Parse a run of decimal digits. -/
def parseDigits : List Char → Option (Nat × List Char)
  | c :: rest =>
      if c.isDigit then
        match parseDigits rest with
        | some (n, rest') => some (n, rest')
        | Option.none => some (0, rest)
      else Option.none
  | [] => Option.none

/-- Value of a maximal digit prefix together with the remainder. -/
def takeDigits (acc : Nat) : List Char → Nat × List Char
  | c :: rest => if c.isDigit then takeDigits (acc * 10 + (c.toNat - 48)) rest else (acc, c :: rest)
  | [] => (acc, [])

/-- The `U+007B` character, written by code to keep brace bookkeeping simple. -/
def openBrace : Char := Char.ofNat 123

/-- The `U+007D` character. -/
def closeBrace : Char := Char.ofNat 125

mutual
/-- Model of `json.loads` value parsing (objects, arrays, strings, integers,
`true`/`false`/`null`), fuel-indexed; the agent's argument payloads fall in
this fragment. -/
def parseJsonValue : Nat → List Char → Option (Py × List Char)
  | 0, _ => Option.none
  | fuel + 1, input =>
    match skipWs input with
    | 'n' :: 'u' :: 'l' :: 'l' :: rest => some (.none, rest)
    | 't' :: 'r' :: 'u' :: 'e' :: rest => some (.bool true, rest)
    | 'f' :: 'a' :: 'l' :: 's' :: 'e' :: rest => some (.bool false, rest)
    | '"' :: rest => (parseJsonString rest).map fun sr => (.str sr.1, sr.2)
    | '[' :: rest =>
        (match skipWs rest with
         | ']' :: rest' => some (.list [], rest')
         | other => (parseJsonItems fuel other).map fun p => (.list p.1, p.2))
    | '-' :: c :: rest =>
        if c.isDigit then
          let nr := takeDigits (c.toNat - 48) rest
          some (.int (-(nr.1 : Int)), nr.2)
        else Option.none
    | c :: rest =>
        if c == openBrace then
          match skipWs rest with
          | c' :: rest' =>
              if c' == closeBrace then some (.dict [], rest')
              else (parseJsonMembers fuel (c' :: rest')).map fun p => (.dict p.1, p.2)
          | [] => Option.none
        else if c.isDigit then
          let nr := takeDigits (c.toNat - 48) rest
          some (.int (nr.1 : Int), nr.2)
        else Option.none
    | [] => Option.none

/-- One-or-more comma-separated array items, up to the closing bracket. -/
def parseJsonItems : Nat → List Char → Option (List Py × List Char)
  | 0, _ => Option.none
  | fuel + 1, input =>
      (parseJsonValue fuel input).bind fun vr =>
        match skipWs vr.2 with
        | ',' :: rest' => (parseJsonItems fuel rest').map fun p => (vr.1 :: p.1, p.2)
        | ']' :: rest' => some ([vr.1], rest')
        | _ => Option.none

/-- One-or-more `"key": value` object members, up to the closing brace. -/
def parseJsonMembers : Nat → List Char → Option (List (String × Py) × List Char)
  | 0, _ => Option.none
  | fuel + 1, input =>
      match skipWs input with
      | '"' :: rest =>
          (parseJsonString rest).bind fun kr =>
            match skipWs kr.2 with
            | ':' :: rest2 =>
                (parseJsonValue fuel rest2).bind fun vr =>
                  match skipWs vr.2 with
                  | ',' :: rest4 =>
                      (parseJsonMembers fuel rest4).map fun p => ((kr.1, vr.1) :: p.1, p.2)
                  | c :: rest4 =>
                      if c == closeBrace then some ([(kr.1, vr.1)], rest4) else Option.none
                  | [] => Option.none
            | _ => Option.none
      | _ => Option.none
end

/-- `json.loads(s)` returning `Option.none` where Python raises
`json.JSONDecodeError` (the only exception `json.loads` raises on `str`
input).  Fuel `2 * length + 2` dominates the parser's recursion depth, so
exhaustion never rejects a well-formed input. -/
def jsonLoads (s : String) : Option Py :=
  match parseJsonValue (2 * s.length + 2) s.toList with
  | some vr => if skipWs vr.2 == [] then some vr.1 else Option.none
  | Option.none => Option.none

/-- `ToolCall` from `agent/types.py`: normalized tool call emitted by the
model.  `arguments` holds whatever `_parse_tool_calls` produced. -/
structure ToolCall where
  id : String
  name : String
  arguments : Py
  arguments_raw : Option String := Option.none

/-- `ChatMessage` from `agent/types.py`. -/
structure ChatMessage where
  role : String
  content : Option String := Option.none
  name : Option String := Option.none
  tool_call_id : Option String := Option.none
  tool_calls : List ToolCall := []

/-- `ModelResponse` from `agent/types.py` (raw backend payload retained). -/
structure ModelResponse where
  text : String
  tool_calls : List ToolCall := []
  raw : Py := .none

/-- `AgentResult` from `agent/types.py`. -/
structure AgentResult where
  output : String
  steps : Nat
  tool_calls_executed : Nat := 0
deriving DecidableEq

/-- `ToolSpec` from `tools/base.py`. -/
structure ToolSpec where
  name : String
  description : String
  input_schema : Py
  scopes : List String := []

/-- `ToolResult` from `tools/base.py`. -/
structure ToolResult where
  name : String
  ok : Bool
  content : String
  data : Option Py := Option.none
  error : Option String := Option.none

/-- `ToolResult.failure`: content encodes the error as a JSON object. -/
def ToolResult.failure (name : String) (error : String) : ToolResult :=
  { name := name, ok := false,
    content := jsonDumps (.dict [("error", .str error)]),
    error := some error }

/-- `ToolAuthContext` from `tools/policies.py` (`scopes` is a Python set;
only membership and intersection-emptiness are ever used, so a list with
membership is an adequate model). -/
structure ToolAuthContext where
  scopes : List String := []
  user_id : Option String := Option.none

/-- `ToolPolicyDecision` from `tools/policies.py`. -/
structure ToolPolicyDecision where
  allow : Bool
  reason : Option String := Option.none
deriving DecidableEq

/-- `ToolPolicy` from `tools/policies.py`. -/
structure ToolPolicy where
  allowed_tools : Option (List String) := Option.none
  denied_tools : List String := []
  max_calls : Nat := 8

/-- `ToolPolicy.evaluate`: direct transcription of the ordered checks in
`tools/policies.py` lines 34-52. -/
def ToolPolicy.evaluate (p : ToolPolicy) (spec : ToolSpec)
    (auth : Option ToolAuthContext) (call_count : Nat) : ToolPolicyDecision :=
  if call_count ≥ p.max_calls then
    { allow := false, reason := some "tool_call_limit_reached" }
  else if spec.name ∈ p.denied_tools then
    { allow := false, reason := some "tool_denied" }
  else if (match p.allowed_tools with
           | some allowed => decide (spec.name ∉ allowed)
           | Option.none => false) then
    { allow := false, reason := some "tool_not_allowed" }
  else if !spec.scopes.isEmpty then
    match auth with
    | Option.none => { allow := false, reason := some "missing_auth_context" }
    | some ctx =>
        if !spec.scopes.any (fun s => ctx.scopes.contains s) then
          { allow := false, reason := some "missing_required_scope" }
        else { allow := true }
  else { allow := true }

/-- A registered capability (`Tool` protocol from `tools/base.py`): a spec
plus an async `run`; a raised exception is modelled as `Except.error`. -/
structure Tool where
  spec : ToolSpec
  run : Py → Except String ToolResult

/-- A `ToolRegistry` (`tools/registry.py`): an insertion-ordered mapping
from unique names to tools, modelled as the list of registered tools. -/
def ToolRegistry := List Tool

/-- `ToolRegistry.get(name)`: the registered tool of that name, if any. -/
def registryGet (reg : ToolRegistry) (name : String) : Option Tool :=
  reg.find? (fun t => t.spec.name == name)

/-- `ToolRegistry.list_specs(auth)` from `tools/registry.py`. -/
def listSpecs (reg : ToolRegistry) (auth : Option ToolAuthContext) : List ToolSpec :=
  let specs := reg.map (fun t => t.spec)
  match auth with
  | Option.none => specs.filter (fun s => s.scopes.isEmpty)
  | some ctx =>
      if ctx.scopes.isEmpty then specs.filter (fun s => s.scopes.isEmpty)
      else specs.filter
        (fun s => s.scopes.isEmpty || s.scopes.any (fun sc => ctx.scopes.contains sc))

mutual
/-- `_coerce_text_chunks` from `agent/runner.py` lines 114-140.  Payloads are
JSON-decoded data, so the `hasattr(value, "text")` branch for non-dict
attribute-bearing objects has no inhabitant here; ints, bools and `None`
fall through to the final `return []`.  The recursive call on a dict's
`content` value goes through `coerceContentIn`, which walks to the first
`"content"` key (`coerceContentIn_eq_dictGet` below relates the two), and
the recursion over list elements through `coerceList`, keeping the
recursion structural. -/
def coerceTextChunks : Py → List String
  | .str s => if s == "" then [] else [s]
  | .dict kvs =>
      let text :=
        match dictGet kvs "text" with
        | .dict tkvs => pyOr (dictGet tkvs "value") (dictGet tkvs "text")
        | other => other
      if truthy text then [pyStr text]
      else if truthy (dictGet kvs "value") then [pyStr (dictGet kvs "value")]
      else if truthy (dictGet kvs "content") then coerceContentIn kvs
      else []
  | .list xs => coerceList xs
  | _ => []

/-- Coerce the value of a dict's first `"content"` key. -/
def coerceContentIn : List (String × Py) → List String
  | [] => []
  | (k, v) :: rest =>
      if k == "content" then coerceTextChunks v else coerceContentIn rest

/-- Coerce every element of a list, concatenating in order. -/
def coerceList : List Py → List String
  | [] => []
  | x :: xs => coerceTextChunks x ++ coerceList xs
end

/-- `coerceContentIn` is `_coerce_text_chunks` applied to the dict's
`content` value: the first matching key is coerced, and a dict without a
`content` key coerces `None` to no chunks either way. -/
theorem coerceContentIn_eq_dictGet (kvs : List (String × Py)) :
    coerceContentIn kvs = coerceTextChunks (dictGet kvs "content") := by
  induction kvs with
  | nil => rfl
  | cons kv rest ih =>
      obtain ⟨k, v⟩ := kv
      simp only [coerceContentIn, dictGet]
      split
      · rfl
      · exact ih

/-- `coerceList` is element-by-element coercion in order. -/
theorem coerceList_eq_flatMap (xs : List Py) :
    coerceList xs = xs.flatMap coerceTextChunks := by
  induction xs with
  | nil => rfl
  | cons x rest ih => simp [coerceList, ih]

/-- `x is None` for payload values. -/
def isPyNone : Py → Bool
  | .none => true
  | _ => false

/-- Equality of a payload value with a string literal (Python `==` between a
payload value and a `str` is `False` unless the value is that string). -/
def pyEqStr (v : Py) (s : String) : Bool :=
  match v with
  | .str t => t == s
  | _ => false

/-- One iteration of the loop in `_parse_tool_calls` (`agent/runner.py`
lines 30-56): `idx` is the `enumerate` index of the raw call. -/
def parseOneToolCall (idx : Nat) (raw : Py) : ToolCall :=
  let call_id :=
    pyOr (getAttr raw "call_id" .none) (getAttr raw "id" (.str ("call_" ++ toString idx)))
  let na : Py × Py :=
    match getAttr raw "function" .none with
    | .none => (getAttr raw "name" (.str ""), getAttr raw "arguments" (.str ""))
    | f => (getAttr f "name" (.str ""), getAttr f "arguments" (.str ""))
  let arguments_raw : Option String :=
    match na.2 with
    | .str s => some s
    | _ => Option.none
  let arguments_obj : Py :=
    match na.2 with
    | .str s => (jsonLoads s).getD (.dict [])
    | .dict kvs => .dict kvs
    | _ => .dict []
  { id := pyStr call_id, name := pyStr na.1,
    arguments := arguments_obj, arguments_raw := arguments_raw }

/-- `_parse_tool_calls` over an already-materialized list of raw calls. -/
def parseToolCalls (xs : List Py) : List ToolCall :=
  xs.mapIdx parseOneToolCall

/-- `_parse_tool_calls` applied to a raw payload field: Python iterates the
argument, which raises `TypeError` on non-iterables. -/
def parseToolCallsPy (p : Py) : Except String (List ToolCall) :=
  (pyIter p).map parseToolCalls

/-- `_looks_like_tool_call` from `agent/runner.py` lines 143-144. -/
def looksLikeToolCall (value : Py) : Bool :=
  truthy (getAttr value "name" .none) || !isPyNone (getAttr value "arguments" .none)

/-- Loop body of `_extract_response_payload` (lines 65-91): dispatch on one
output item, extending the accumulated text parts and tool calls. -/
def processItem (item : Py) (textParts : List String) (toolCalls : List ToolCall) :
    Except String (List String × List ToolCall) := do
  let item_type := getAttr item "type" (.str "")
  if pyEqStr item_type "message" || pyEqStr item_type "output_message" then
    let chunks ← pyIter (pyOr (getAttr item "content" (.list [])) (.list []))
    let newTexts := chunks.flatMap (fun chunk =>
      let chunk_type := getAttr chunk "type" (.str "")
      if pyEqStr chunk_type "output_text" || pyEqStr chunk_type "text" then
        coerceTextChunks (pyOr (getAttr chunk "text" .none) chunk)
      else coerceTextChunks chunk)
    let raw_tool_calls := getAttr item "tool_calls" .none
    if truthy raw_tool_calls then do
      let parsed ← parseToolCallsPy raw_tool_calls
      pure (textParts ++ newTexts, toolCalls ++ parsed)
    else
      pure (textParts ++ newTexts, toolCalls)
  else if pyEqStr item_type "tool_call" then
    pure (textParts, toolCalls ++ parseToolCalls [item])
  else if pyEqStr item_type "output_text" || pyEqStr item_type "text" then
    let text := getAttr item "text" (.str "")
    if truthy text then pure (textParts ++ [pyStr text], toolCalls)
    else pure (textParts, toolCalls)
  else if looksLikeToolCall item then
    pure (textParts, toolCalls ++ parseToolCalls [item])
  else
    let t1 := coerceTextChunks (getAttr item "text" .none)
    let content := getAttr item "content" .none
    let t2 := if truthy content then coerceTextChunks content else []
    pure (textParts ++ t1 ++ t2, toolCalls)

/-- The `for item in output` loop of `_extract_response_payload`. -/
def processItems : List Py → List String → List ToolCall →
    Except String (List String × List ToolCall)
  | [], ts, cs => .ok (ts, cs)
  | item :: rest, ts, cs => do
      let (ts', cs') ← processItem item ts cs
      processItems rest ts' cs'

/-- `_extract_response_payload` from `agent/runner.py` lines 60-111, in
`Except` because iterating a non-iterable `output`/`tool_calls` field or
indexing `choices[0]` on a truthy non-sequence raises in Python. -/
def extractResponsePayload (response : Py) : Except String (String × List ToolCall) := do
  let output := pyOr (getAttr response "output" (.list [])) (.list [])
  let items ← pyIter output
  let (textParts0, toolCalls0) ← processItems items [] []
  let textParts1 :=
    if textParts0.isEmpty then
      match getAttr response "output_text" (.str "") with
      | .str s => if s != "" then [s] else []
      | _ => []
    else textParts0
  let textParts2 :=
    if textParts1.isEmpty then coerceTextChunks (getAttr response "text" (.str ""))
    else textParts1
  if textParts2.isEmpty then
    let choices := pyOr (getAttr response "choices" (.list [])) (.list [])
    let message ←
      if truthy choices then do
        let c0 ← pyIndex0 choices
        pure (getAttr c0 "message" (.dict []))
      else pure (Py.dict [])
    let textParts3 := coerceTextChunks (getAttr message "content" (.str ""))
    let choice_tool_calls := pyOr (getAttr message "tool_calls" (.list [])) (.list [])
    if truthy choice_tool_calls then do
      let parsed ← parseToolCallsPy choice_tool_calls
      pure (pyStrip (String.join textParts3), toolCalls0 ++ parsed)
    else
      pure (pyStrip (String.join textParts3), toolCalls0)
  else
    pure (pyStrip (String.join textParts2), toolCalls0)

/-- `LiteLLMChatClient.complete` (`agent/runner.py` lines 213-255), modelled
as a function of the payloads the two transports return: the request
encodings and the `await`s are external I/O, and the secondary
(chat-completion) transport's payload is consulted exactly when the branch
retrying it is taken.  Transport-raised errors propagate via `Except`. -/
def complete (primaryPayload secondaryPayload : Py) : Except String ModelResponse := do
  let (text, tool_calls) ← extractResponsePayload primaryPayload
  if text == "" && tool_calls.isEmpty then do
    let (t2, c2) ← extractResponsePayload secondaryPayload
    pure { text := t2, tool_calls := c2, raw := secondaryPayload }
  else
    pure { text := text, tool_calls := tool_calls, raw := primaryPayload }

/-- `ToolExecutor.execute` from `tools/executor.py` lines 32-75, returning
the `ToolExecutionSummary` pair `(results, call_count)`. -/
def executeCalls (reg : ToolRegistry) (pol : ToolPolicy) (auth : Option ToolAuthContext) :
    List ToolCall → Nat → List ToolResult × Nat
  | [], call_count => ([], call_count)
  | call :: rest, call_count =>
      match registryGet reg call.name with
      | Option.none =>
          let r := executeCalls reg pol auth rest (call_count + 1)
          (ToolResult.failure call.name "tool_not_found" :: r.1, r.2)
      | some tool =>
          let decision := pol.evaluate tool.spec auth call_count
          if !decision.allow then
            let reason :=
              match decision.reason with
              | some s => if s == "" then "tool_not_allowed" else s
              | Option.none => "tool_not_allowed"
            let r := executeCalls reg pol auth rest (call_count + 1)
            (ToolResult.failure call.name reason :: r.1, r.2)
          else
            let result :=
              match tool.run call.arguments with
              | .ok res => res
              | .error _ => ToolResult.failure call.name "tool_execution_failed"
            let r := executeCalls reg pol auth rest (call_count + 1)
            (result :: r.1, r.2)

/-- The assistant message the runner appends when a response carries tool
calls (`agent/runner.py` lines 316-323): text stripped, then empty text
recorded as absent. -/
def assistantMessage (response : ModelResponse) : ChatMessage :=
  let assistant_text := pyStrip response.text
  { role := "assistant",
    content := if assistant_text == "" then Option.none else some assistant_text,
    tool_calls := response.tool_calls }

/-- The `tool`-role messages appended after a batch (`agent/runner.py`
lines 330-338): `zip(tool_calls, results, strict=False)`. -/
def toolMessages (calls : List ToolCall) (results : List ToolResult) : List ChatMessage :=
  (calls.zip results).map fun cr =>
    { role := "tool", content := some cr.2.content,
      tool_call_id := some cr.1.id, name := some cr.1.name }

/-- `AgentRunner` from `agent/runner.py`: the client is modelled as the
function taking the conversation and offered tool specs to the normalized
`ModelResponse`; the executor's registry and policy are carried directly. -/
structure AgentRunner where
  client : List ChatMessage → List ToolSpec → ModelResponse
  registry : ToolRegistry
  policy : ToolPolicy
  max_steps : Nat := 6

/-- The `for step in range(self.max_steps)` loop of `AgentRunner.run`
(lines 313-347): `remaining` counts loop iterations still available and
`step` is the 0-based index of the current iteration; falling out of the
loop returns `AgentResult("", max_steps, call_count)`. -/
def runSteps (r : AgentRunner) (auth : Option ToolAuthContext) :
    Nat → Nat → List ChatMessage → Nat → AgentResult
  | 0, _, _, call_count =>
      { output := "", steps := r.max_steps, tool_calls_executed := call_count }
  | remaining + 1, step, messages, call_count =>
      let response := r.client messages (listSpecs r.registry auth)
      if response.tool_calls.isEmpty then
        { output := pyStrip response.text, steps := step + 1, tool_calls_executed := call_count }
      else
        let msgs := messages ++ [assistantMessage response]
        let summary := executeCalls r.registry r.policy auth response.tool_calls call_count
        runSteps r auth remaining (step + 1)
          (msgs ++ toolMessages response.tool_calls summary.1) summary.2

/-- `AgentRunner.run` (lines 300-347): seed the conversation with the
optional system prompt (skipped when falsy) and the user input, then loop. -/
def AgentRunner.run (r : AgentRunner) (user_input : String)
    (auth : Option ToolAuthContext := Option.none)
    (system_prompt : Option String := Option.none) : AgentResult :=
  let systemMsgs : List ChatMessage :=
    match system_prompt with
    | some sp => if sp == "" then [] else [{ role := "system", content := some sp }]
    | Option.none => []
  let messages := systemMsgs ++ [{ role := "user", content := some user_input }]
  runSteps r auth r.max_steps 0 messages 0

/-! ### Shared lemmas about the executor -/

/-- The executor produces exactly one result per input call. -/
theorem executeCalls_length (reg : ToolRegistry) (pol : ToolPolicy)
    (auth : Option ToolAuthContext) (calls : List ToolCall) (cc : Nat) :
    (executeCalls reg pol auth calls cc).1.length = calls.length := by
  induction calls generalizing cc with
  | nil => rfl
  | cons call rest ih =>
      simp only [executeCalls]
      cases registryGet reg call.name with
      | none => simpa using ih (cc + 1)
      | some tool =>
          by_cases h : (pol.evaluate tool.spec auth cc).allow
          · simp only [h]
            simpa using ih (cc + 1)
          · simp only [eq_false_of_ne_true h]
            simpa using ih (cc + 1)

/-- Every call, resolvable or not, allowed or not, consumes one unit of
budget: the final count is the initial count plus the batch size. -/
theorem executeCalls_count (reg : ToolRegistry) (pol : ToolPolicy)
    (auth : Option ToolAuthContext) (calls : List ToolCall) (cc : Nat) :
    (executeCalls reg pol auth calls cc).2 = cc + calls.length := by
  induction calls generalizing cc with
  | nil => rfl
  | cons call rest ih =>
      simp only [executeCalls]
      cases registryGet reg call.name with
      | none =>
          simp only [List.length_cons]
          rw [ih (cc + 1)]
          omega
      | some tool =>
          by_cases h : (pol.evaluate tool.spec auth cc).allow
          all_goals simp only [h, Bool.not_true, Bool.not_false, if_true, if_false,
            Bool.false_eq_true, List.length_cons]
          all_goals rw [ih (cc + 1)]
          all_goals omega

/-- An unregistered name at position `i` yields the `tool_not_found`
failure at position `i` of the results. -/
theorem executeCalls_not_found (reg : ToolRegistry) (pol : ToolPolicy)
    (auth : Option ToolAuthContext) (calls : List ToolCall) (cc : Nat)
    (i : Nat) (call : ToolCall) (hget : calls.get? i = some call)
    (hmiss : registryGet reg call.name = Option.none) :
    (executeCalls reg pol auth calls cc).1.get? i =
      some (ToolResult.failure call.name "tool_not_found") := by
  induction calls generalizing cc i with
  | nil => simp at hget
  | cons c rest ih =>
      cases i with
      | zero =>
          simp only [List.get?_cons_zero, Option.some.injEq] at hget
          subst hget
          simp [executeCalls, hmiss]
      | succ j =>
          simp only [List.get?_cons_succ] at hget
          simp only [executeCalls]
          cases registryGet reg c.name with
          | none => simpa using ih (cc + 1) j hget
          | some tool =>
              by_cases h : (pol.evaluate tool.spec auth cc).allow
              all_goals simp only [h, Bool.not_true, Bool.not_false, if_true, if_false,
                Bool.false_eq_true]
              all_goals simpa using ih (cc + 1) j hget

/-! ### Claims C3, C8 — the executor -/

/-- C3: for every list of calls and every initial call count,
`ToolExecutor.execute` returns exactly one `ToolResult` per input call, in
input order, and the returned call count equals the initial count plus the
number of input calls; a call whose name is unregistered is recorded at its
own position as a `tool_not_found` failure while the batch continues. -/
theorem claim_C3_executor_batch_shape :
    ∀ (reg : ToolRegistry) (pol : ToolPolicy) (auth : Option ToolAuthContext)
      (calls : List ToolCall) (cc : Nat),
      (executeCalls reg pol auth calls cc).1.length = calls.length ∧
      (executeCalls reg pol auth calls cc).2 = cc + calls.length ∧
      (∀ (i : Nat) (call : ToolCall), calls.get? i = some call →
        registryGet reg call.name = Option.none →
        (executeCalls reg pol auth calls cc).1.get? i =
          some (ToolResult.failure call.name "tool_not_found")) := by
  intro reg pol auth calls cc
  exact ⟨executeCalls_length reg pol auth calls cc,
         executeCalls_count reg pol auth calls cc,
         fun i call hget hmiss =>
           executeCalls_not_found reg pol auth calls cc i call hget hmiss⟩

/-- A tool call naming no registered tool, for exercising the executor. -/
def ghostCall : ToolCall :=
  { id := "call-9", name := "retrieve", arguments := .dict [("query", .str "hello")] }

/-- Witness for C3: one unregistered call against an empty registry yields
one `tool_not_found` result and a call count of 1. -/
theorem claim_C3_executor_batch_shape_witness :
    (executeCalls [] {} Option.none [ghostCall] 0).1.length = 1 ∧
    (executeCalls [] {} Option.none [ghostCall] 0).2 = 1 ∧
    (executeCalls [] {} Option.none [ghostCall] 0).1.get? 0 =
      some (ToolResult.failure "retrieve" "tool_not_found") := by
  obtain ⟨h1, h2, h3⟩ := claim_C3_executor_batch_shape [] {} Option.none [ghostCall] 0
  exact ⟨h1, h2, h3 0 ghostCall rfl rfl⟩

/-- C8: a capability whose `run` raises does not propagate the exception:
its slot in the batch is the generic `tool_execution_failed` failure —
`ok = false`, content encoding `\x7b"error": "tool_execution_failed"\x7d` —
and the remaining calls still execute (with the count already incremented
for the faulting call). -/
theorem claim_C8_execution_fault_isolated :
    ∀ (reg : ToolRegistry) (pol : ToolPolicy) (auth : Option ToolAuthContext)
      (call : ToolCall) (rest : List ToolCall) (cc : Nat) (tool : Tool) (e : String),
      registryGet reg call.name = some tool →
      (pol.evaluate tool.spec auth cc).allow = true →
      tool.run call.arguments = .error e →
      executeCalls reg pol auth (call :: rest) cc =
        (ToolResult.failure call.name "tool_execution_failed" ::
           (executeCalls reg pol auth rest (cc + 1)).1,
         (executeCalls reg pol auth rest (cc + 1)).2) ∧
      ToolResult.failure call.name "tool_execution_failed" =
        { name := call.name, ok := false,
          content := "\x7b\"error\": \"tool_execution_failed\"\x7d",
          data := Option.none, error := some "tool_execution_failed" } := by
  intro reg pol auth call rest cc tool e hfound hallow hraise
  constructor
  · simp [executeCalls, hfound, hallow, hraise]
  · rfl

/-- A capability that always raises, for exercising fault isolation. -/
def crashingTool : Tool :=
  { spec := { name := "crash", description := "always raises",
              input_schema := .dict [("type", .str "object")] },
    run := fun _ => .error "RuntimeError: boom" }

/-- A call to the raising capability. -/
def crashCall : ToolCall :=
  { id := "call-1", name := "crash", arguments := .dict [] }

/-- Witness for C8: running the raising capability yields the generic
failure result and the batch terminates normally with count 1. -/
theorem claim_C8_execution_fault_isolated_witness :
    executeCalls [crashingTool] {} Option.none [crashCall] 0 =
      ([ToolResult.failure "crash" "tool_execution_failed"], 1) := by
  have h := (claim_C8_execution_fault_isolated [crashingTool] {} Option.none
    crashCall [] 0 crashingTool "RuntimeError: boom" rfl rfl rfl).1
  simpa using h

/-! ### Claim C4 — the policy cascade -/

/-- The §4.4 evaluation cascade as the spec words it, check by check, for
comparison with the implementation's `ToolPolicy.evaluate`: budget first,
then deny set, then allow set, then the two scope checks. -/
def policyEvaluateSpec (p : ToolPolicy) (spec : ToolSpec)
    (auth : Option ToolAuthContext) (call_count : Nat) : ToolPolicyDecision :=
  if p.max_calls ≤ call_count then
    { allow := false, reason := some "tool_call_limit_reached" }
  else if spec.name ∈ p.denied_tools then
    { allow := false, reason := some "tool_denied" }
  else
    match p.allowed_tools with
    | some allowed =>
        if spec.name ∉ allowed then
          { allow := false, reason := some "tool_not_allowed" }
        else if spec.scopes = [] then { allow := true }
        else
          match auth with
          | Option.none => { allow := false, reason := some "missing_auth_context" }
          | some ctx =>
              if ∀ s ∈ spec.scopes, s ∉ ctx.scopes then
                { allow := false, reason := some "missing_required_scope" }
              else { allow := true }
    | Option.none =>
        if spec.scopes = [] then { allow := true }
        else
          match auth with
          | Option.none => { allow := false, reason := some "missing_auth_context" }
          | some ctx =>
              if ∀ s ∈ spec.scopes, s ∉ ctx.scopes then
                { allow := false, reason := some "missing_required_scope" }
              else { allow := true }

/-- C4: `ToolPolicy.evaluate` decides exactly as the spec's ordered
short-circuit cascade — the budget check strictly precedes the name-based
checks, which strictly precede the scope checks, and the first failing
check names the denial reason. -/
theorem claim_C4_policy_cascade_order :
    ∀ (p : ToolPolicy) (spec : ToolSpec) (auth : Option ToolAuthContext)
      (call_count : Nat),
      p.evaluate spec auth call_count = policyEvaluateSpec p spec auth call_count := by
  have hcontains : ∀ (l : List String) (s : String), l.contains s = true ↔ s ∈ l := by
    intro l s
    simp [List.contains_iff_exists_mem_beq]
  have hany : ∀ (scopes ctxScopes : List String),
      (scopes.any fun s => ctxScopes.contains s) = false ↔ ∀ s ∈ scopes, s ∉ ctxScopes := by
    intro scopes ctxScopes
    simp [List.any_eq_true, hcontains]
  intro p spec auth call_count
  unfold ToolPolicy.evaluate policyEvaluateSpec
  by_cases hb : call_count ≥ p.max_calls
  · simp [hb]
  · have hb' : ¬ p.max_calls ≤ call_count := by omega
    simp only [hb, hb', if_false]
    by_cases hd : spec.name ∈ p.denied_tools
    · simp [hd]
    · simp only [hd, if_false]
      have scopeTail :
          (if !spec.scopes.isEmpty then
             match auth with
             | Option.none =>
                 ({ allow := false, reason := some "missing_auth_context" } : ToolPolicyDecision)
             | some ctx =>
                 if !spec.scopes.any (fun s => ctx.scopes.contains s) then
                   { allow := false, reason := some "missing_required_scope" }
                 else { allow := true }
           else { allow := true }) =
          (if spec.scopes = [] then ({ allow := true } : ToolPolicyDecision)
           else
             match auth with
             | Option.none => { allow := false, reason := some "missing_auth_context" }
             | some ctx =>
                 if ∀ s ∈ spec.scopes, s ∉ ctx.scopes then
                   { allow := false, reason := some "missing_required_scope" }
                 else { allow := true }) := by
        by_cases hsc : spec.scopes = []
        · simp [hsc]
        · simp only [hsc, if_false]
          have : spec.scopes.isEmpty = false := by
            simpa [List.isEmpty_iff] using hsc
          simp only [this, Bool.not_false, if_true]
          cases auth with
          | none => rfl
          | some ctx =>
              by_cases hs : ∀ s ∈ spec.scopes, s ∉ ctx.scopes
              · have h0 : (spec.scopes.any fun s => ctx.scopes.contains s) = false :=
                  (hany spec.scopes ctx.scopes).2 hs
                simp [h0, hs]
              · have h0 : (spec.scopes.any fun s => ctx.scopes.contains s) = true := by
                  rcases Bool.eq_false_or_eq_true
                    (spec.scopes.any fun s => ctx.scopes.contains s) with h | h
                  · exact h
                  · exact absurd ((hany spec.scopes ctx.scopes).1 h) hs
                simp [h0, hs]
      cases hall : p.allowed_tools with
      | some allowed =>
          by_cases ha : spec.name ∈ allowed
          · have : decide (spec.name ∉ allowed) = false := by simp [ha]
            simp only [this, Bool.false_eq_true, if_false, ha, not_true, not_not]
            exact scopeTail
          · simp [ha]
      | none =>
          simp only [Bool.false_eq_true, if_false]
          exact scopeTail

/-! ### Shared lemmas about the runner loop -/

/-- A round whose response carries no tool calls ends the run with the
trimmed text, the 1-based step index, and the running call count. -/
theorem runSteps_final (r : AgentRunner) (auth : Option ToolAuthContext)
    (n step cc : Nat) (msgs : List ChatMessage)
    (h : (r.client msgs (listSpecs r.registry auth)).tool_calls = []) :
    runSteps r auth (n + 1) step msgs cc =
      { output := pyStrip (r.client msgs (listSpecs r.registry auth)).text,
        steps := step + 1, tool_calls_executed := cc } := by
  simp [runSteps, h]

/-- A round whose response carries tool calls appends the assistant message
and the per-call tool messages, threads the updated count, and loops. -/
theorem runSteps_round (r : AgentRunner) (auth : Option ToolAuthContext)
    (n step cc : Nat) (msgs : List ChatMessage)
    (h : (r.client msgs (listSpecs r.registry auth)).tool_calls ≠ []) :
    runSteps r auth (n + 1) step msgs cc =
      runSteps r auth n (step + 1)
        (msgs ++ [assistantMessage (r.client msgs (listSpecs r.registry auth))] ++
          toolMessages (r.client msgs (listSpecs r.registry auth)).tool_calls
            (executeCalls r.registry r.policy auth
              (r.client msgs (listSpecs r.registry auth)).tool_calls cc).1)
        (executeCalls r.registry r.policy auth
          (r.client msgs (listSpecs r.registry auth)).tool_calls cc).2 := by
  have hne : (r.client msgs (listSpecs r.registry auth)).tool_calls.isEmpty = false := by
    simpa [List.isEmpty_iff] using h
  simp [runSteps, hne]

/-- The tool messages pair calls with results positionally. -/
theorem toolMessages_eq_zipWith (calls : List ToolCall) (results : List ToolResult) :
    toolMessages calls results =
      List.zipWith (fun call result =>
        ({ role := "tool", content := some result.content,
           tool_call_id := some call.id, name := some call.name } : ChatMessage))
        calls results := by
  unfold toolMessages
  rw [List.zip_eq_zipWith, List.map_zipWith]

/-- When every model response carries tool calls, the loop exhausts its
budget and ends with empty output and `steps = max_steps`. -/
theorem runSteps_exhaust (r : AgentRunner) (auth : Option ToolAuthContext)
    (hclient : ∀ msgs : List ChatMessage,
      (r.client msgs (listSpecs r.registry auth)).tool_calls ≠ []) :
    ∀ (n step cc : Nat) (msgs : List ChatMessage), ∃ cc',
      runSteps r auth n step msgs cc =
        { output := "", steps := r.max_steps, tool_calls_executed := cc' } := by
  intro n
  induction n with
  | zero => intro step cc msgs; exact ⟨cc, rfl⟩
  | succ m ih =>
      intro step cc msgs
      rw [runSteps_round r auth m step cc msgs (hclient msgs)]
      exact ih (step + 1) _ _

/-! ### Claims C1, C2, C9, C10 — the runner -/

/-- The registered `retrieve` capability of the success scenario: no
required scopes, always returns an `ok` result. -/
def retrieveTool : Tool :=
  { spec := { name := "retrieve", description := "Test tool",
              input_schema := .dict [("type", .str "object")] },
    run := fun _ => .ok { name := "retrieve", ok := true, content := "\x7b\"ok\": true\x7d",
                          data := some (.dict [("ok", .bool true)]) } }

/-- The scenario's single tool call `retrieve(query="hello")`. -/
def scenarioCall : ToolCall :=
  { id := "call-1", name := "retrieve", arguments := .dict [("query", .str "hello")] }

/-- The scenario's model: one `retrieve` call first, then final text
`"done"` once a tool message is in the conversation. -/
def scenarioClient : List ChatMessage → List ToolSpec → ModelResponse :=
  fun msgs _ =>
    if msgs.any (fun m => m.role == "tool") then { text := "done" }
    else { text := "", tool_calls := [scenarioCall] }

/-- Runner for the success scenario: registry has `retrieve` (no scopes),
policy `max_calls = 2`. -/
def scenarioRunner : AgentRunner :=
  { client := scenarioClient, registry := [retrieveTool],
    policy := { max_calls := 2 }, max_steps := 6 }

/-- C1: a model response free of tool calls ends the run with that
response's trimmed text, `steps` the 1-based index of the producing round,
and the cumulative call count; in the spec's scenario (registry holding
scope-free `retrieve`, policy `max_calls = 2`, one `retrieve(query="hello")`
round then final text `"done"`) the result is
`AgentResult(output="done", steps=2, tool_calls_executed=1)`. -/
theorem claim_C1_success_termination :
    (∀ (r : AgentRunner) (auth : Option ToolAuthContext) (n step cc : Nat)
       (msgs : List ChatMessage),
       (r.client msgs (listSpecs r.registry auth)).tool_calls = [] →
       runSteps r auth (n + 1) step msgs cc =
         { output := pyStrip (r.client msgs (listSpecs r.registry auth)).text,
           steps := step + 1, tool_calls_executed := cc }) ∧
    scenarioRunner.run "hi" =
      { output := "done", steps := 2, tool_calls_executed := 1 } := by
  constructor
  · intro r auth n step cc msgs h
    exact runSteps_final r auth n step cc msgs h
  · rfl

/-- A runner whose model immediately answers with padded text. -/
def doneRunner : AgentRunner :=
  { client := fun _ _ => { text := "  done  " }, registry := [],
    policy := {}, max_steps := 6 }

/-- Witness for C1: the tool-call-free round at step index 0 returns the
trimmed text with `steps = 1` and the running count 0. -/
theorem claim_C1_success_termination_witness :
    runSteps doneRunner Option.none 1 0 [] 0 =
      { output := "done", steps := 1, tool_calls_executed := 0 } := by
  have h := claim_C1_success_termination.1 doneRunner Option.none 0 0 0 [] rfl
  rw [h]
  rfl

/-- C2: in a round whose response carries tool calls, the runner appends
exactly one `tool`-role message per `ToolCall`, in call order, each
carrying that call's result content and that call's id — the batch results
(including failures) pair with the calls positionally, and the number of
tool messages equals the number of tool calls issued. -/
theorem claim_C2_tool_message_per_call :
    ∀ (r : AgentRunner) (auth : Option ToolAuthContext) (n step cc : Nat)
      (msgs : List ChatMessage) (resp : ModelResponse)
      (summary : List ToolResult × Nat),
      resp = r.client msgs (listSpecs r.registry auth) →
      summary = executeCalls r.registry r.policy auth resp.tool_calls cc →
      resp.tool_calls ≠ [] →
      runSteps r auth (n + 1) step msgs cc =
        runSteps r auth n (step + 1)
          (msgs ++ [assistantMessage resp] ++ toolMessages resp.tool_calls summary.1)
          summary.2 ∧
      toolMessages resp.tool_calls summary.1 =
        List.zipWith (fun call result =>
          ({ role := "tool", content := some result.content,
             tool_call_id := some call.id, name := some call.name } : ChatMessage))
          resp.tool_calls summary.1 ∧
      (toolMessages resp.tool_calls summary.1).length = resp.tool_calls.length := by
  intro r auth n step cc msgs resp summary hresp hsummary hne
  subst hresp
  subst hsummary
  refine ⟨runSteps_round r auth n step cc msgs hne, toolMessages_eq_zipWith _ _, ?_⟩
  rw [toolMessages_eq_zipWith, List.length_zipWith,
    executeCalls_length r.registry r.policy auth _ cc, Nat.min_self]

/-- A model that issues one unresolvable call every round. -/
def loopingClient : List ChatMessage → List ToolSpec → ModelResponse :=
  fun _ _ => { text := "", tool_calls := [ghostCall] }

/-- Runner used to exercise one tool-calling round concretely. -/
def loopingRunner : AgentRunner :=
  { client := loopingClient, registry := [], policy := {}, max_steps := 6 }

/-- Witness for C2: in the concrete round the single issued call yields
exactly one tool message. -/
theorem claim_C2_tool_message_per_call_witness :
    (toolMessages (loopingRunner.client [] (listSpecs loopingRunner.registry
        Option.none)).tool_calls
      (executeCalls loopingRunner.registry loopingRunner.policy Option.none
        (loopingRunner.client [] (listSpecs loopingRunner.registry
          Option.none)).tool_calls 0).1).length =
    (loopingRunner.client [] (listSpecs loopingRunner.registry
      Option.none)).tool_calls.length :=
  (claim_C2_tool_message_per_call loopingRunner Option.none 0 0 0 [] _ _ rfl rfl
    (List.cons_ne_nil _ _)).2.2

/-- Runner for the exhaustion scenario: `max_steps = 1`, model always
issues one `retrieve` call. -/
def exhaustRunner : AgentRunner :=
  { client := fun _ _ => { text := "", tool_calls := [scenarioCall] },
    registry := [retrieveTool], policy := { max_calls := 2 }, max_steps := 1 }

/-- C9: when every requesting round carries tool calls, the run terminates
normally with empty output, `steps = max_steps`, and the cumulative call
count reached; with `max_steps = 1` and a model always issuing one call,
the result is `AgentResult(output="", steps=1, tool_calls_executed=1)`. -/
theorem claim_C9_step_exhaustion :
    (∀ (r : AgentRunner) (auth : Option ToolAuthContext),
       (∀ msgs : List ChatMessage,
         (r.client msgs (listSpecs r.registry auth)).tool_calls ≠ []) →
       ∀ (user_input : String) (system_prompt : Option String), ∃ cc,
         r.run user_input auth system_prompt =
           { output := "", steps := r.max_steps, tool_calls_executed := cc }) ∧
    exhaustRunner.run "hi" =
      { output := "", steps := 1, tool_calls_executed := 1 } := by
  constructor
  · intro r auth hclient user_input system_prompt
    unfold AgentRunner.run
    exact runSteps_exhaust r auth hclient r.max_steps 0 0 _
  · rfl

/-- Witness for C9: applying the exhaustion theorem to the concrete runner,
whose model issues a call for every conversation. -/
theorem claim_C9_step_exhaustion_witness :
    ∃ cc, exhaustRunner.run "hi" Option.none Option.none =
      { output := "", steps := 1, tool_calls_executed := cc } :=
  claim_C9_step_exhaustion.1 exhaustRunner Option.none
    (fun _ => List.cons_ne_nil _ _) "hi" Option.none

/-- C10: the assistant message appended in a tool-calling round records the
response text stripped, with empty-after-stripping text recorded as absent
(`None`) — so whitespace-only text is recorded as absent, and any other
text is recorded stripped rather than as the original string. -/
theorem claim_C10_assistant_text_stripped :
    (∀ (r : AgentRunner) (auth : Option ToolAuthContext) (n step cc : Nat)
       (msgs : List ChatMessage),
       (r.client msgs (listSpecs r.registry auth)).tool_calls ≠ [] →
       runSteps r auth (n + 1) step msgs cc =
         runSteps r auth n (step + 1)
           (msgs ++ [assistantMessage (r.client msgs (listSpecs r.registry auth))] ++
             toolMessages (r.client msgs (listSpecs r.registry auth)).tool_calls
               (executeCalls r.registry r.policy auth
                 (r.client msgs (listSpecs r.registry auth)).tool_calls cc).1)
           (executeCalls r.registry r.policy auth
             (r.client msgs (listSpecs r.registry auth)).tool_calls cc).2) ∧
    (∀ resp : ModelResponse,
       (assistantMessage resp).content =
         if pyStrip resp.text = "" then Option.none else some (pyStrip resp.text)) ∧
    (assistantMessage { text := " \n\t  ", tool_calls := [ghostCall] }).content =
      Option.none ∧
    (assistantMessage { text := "  final  ", tool_calls := [ghostCall] }).content =
      some "final" := by
  refine ⟨fun r auth n step cc msgs h => runSteps_round r auth n step cc msgs h,
    ?_, rfl, rfl⟩
  intro resp
  simp only [assistantMessage]
  by_cases h : pyStrip resp.text = ""
  · simp [h]
  · simp [h]

/-- Witness for C10: one concrete tool-calling round appends the assistant
message (whose whitespace-only text was recorded as absent). -/
theorem claim_C10_assistant_text_stripped_witness :
    runSteps loopingRunner Option.none 1 0 [] 0 =
      runSteps loopingRunner Option.none 0 1
        ([] ++ [assistantMessage (loopingRunner.client []
            (listSpecs loopingRunner.registry Option.none))] ++
          toolMessages (loopingRunner.client []
              (listSpecs loopingRunner.registry Option.none)).tool_calls
            (executeCalls loopingRunner.registry loopingRunner.policy Option.none
              (loopingRunner.client []
                (listSpecs loopingRunner.registry Option.none)).tool_calls 0).1)
        (executeCalls loopingRunner.registry loopingRunner.policy Option.none
          (loopingRunner.client []
            (listSpecs loopingRunner.registry Option.none)).tool_calls 0).2 :=
  claim_C10_assistant_text_stripped.1 loopingRunner Option.none 0 0 0 []
    (List.cons_ne_nil _ _)

/-! ### Claims C5, C6, C7 — the normalizer and the chat client -/

/-- Reduction of the `Except` bind on a success value. -/
theorem exceptBind_ok {α β : Type} (a : α) (f : α → Except String β) :
    (Except.ok a : Except String α) >>= f = f a := rfl

/-- Reduction of the `Except` bind on a propagated error. -/
theorem exceptBind_error {α β : Type} (e : String) (f : α → Except String β) :
    (Except.error e : Except String α) >>= f = .error e := rfl

/-- A malformed chat-completion-shaped payload whose `choices` field is a
single object rather than an array — a shape the normalizer's final
fallback indexes with `choices[0]`. -/
def malformedChoicesPayload : Py :=
  .dict [("choices", .dict [("message", .dict [("content", .str "hi")])])]

/-- C5 (refuted): the normalizer is not total — on a payload whose
`choices` field is a truthy dict, `_get_attr(choices[0], ...)` evaluates
`choices[0]` on a string-keyed dict and raises `KeyError: 0` instead of
degrading to `("", [])`. -/
theorem claim_C5_normalizer_raises_on_dict_choices :
    extractResponsePayload malformedChoicesPayload = .error "KeyError: 0" := rfl

/-- A primary-transport payload with no recognizable text or tool-call
shape: normalization degrades it to `("", [])`. -/
def unrecognizablePrimary : Py :=
  .dict [("object", .str "response"), ("status", .str "ok")]

/-- A valid chat-completion-shaped secondary payload carrying
`choices[0].message.content = "hi"`. -/
def chatHiSecondary : Py :=
  .dict [("choices", .list [.dict [("message", .dict [("content", .str "hi")])]])]

/-- C6: `complete` returns the primary normalization untouched (never
consulting the secondary transport) whenever it is non-empty; exactly when
the primary normalization is empty it retries once, returning the
secondary normalization regardless of outcome; in the spec's scenario the
unrecognizable primary plus a chat-completion secondary saying "hi" yields
`ModelResponse.text = "hi"`. -/
theorem claim_C6_single_fallback_retry :
    (∀ (p s : Py) (t : String) (cs : List ToolCall),
       extractResponsePayload p = .ok (t, cs) → ¬(t = "" ∧ cs = []) →
       complete p s = .ok { text := t, tool_calls := cs, raw := p }) ∧
    (∀ p s : Py,
       extractResponsePayload p = .ok ("", []) →
       complete p s = (extractResponsePayload s).map
         (fun r => { text := r.1, tool_calls := r.2, raw := s })) ∧
    complete unrecognizablePrimary chatHiSecondary =
      .ok { text := "hi", tool_calls := [], raw := chatHiSecondary } := by
  refine ⟨?_, ?_, rfl⟩
  · intro p s t cs h hne
    have hb : (t == "" && cs.isEmpty) = false := by
      by_cases ht : t = ""
      · have hcs : cs ≠ [] := fun hcs => hne ⟨ht, hcs⟩
        have h0 : cs.isEmpty = false := by simpa [List.isEmpty_iff] using hcs
        simp [h0]
      · have h0 : (t == "") = false := by simpa using ht
        simp [h0]
    simp only [complete, h, exceptBind_ok]
    simp [hb]
    rfl
  · intro p s h
    simp only [complete, h, exceptBind_ok]
    cases hs : extractResponsePayload s with
    | ok r => simp [hs, exceptBind_ok, Except.map]
    | error e => simp [hs, exceptBind_error, Except.map]

/-- Witness for C6: the non-empty secondary normalization is returned
unchanged when used as a primary (conjunct 1), and the empty-normalizing
primary routes to the secondary's normalization (conjunct 2). -/
theorem claim_C6_single_fallback_retry_witness :
    complete chatHiSecondary (.dict []) =
      .ok { text := "hi", tool_calls := [], raw := chatHiSecondary } ∧
    complete unrecognizablePrimary chatHiSecondary =
      (extractResponsePayload chatHiSecondary).map
        (fun r => { text := r.1, tool_calls := r.2, raw := chatHiSecondary }) :=
  ⟨claim_C6_single_fallback_retry.1 chatHiSecondary (.dict []) "hi" [] rfl
     (fun hc => by exact absurd hc.1 (by simp)),
   claim_C6_single_fallback_retry.2.1 unrecognizablePrimary chatHiSecondary rfl⟩

/-- A raw tool call whose textual `arguments` encoding is valid JSON but
not an object: `"[1, 2]"`. -/
def listArgsRawCall : Py :=
  .dict [("id", .str "c1"),
         ("function", .dict [("name", .str "retrieve"),
                             ("arguments", .str "[1, 2]")])]

/-- C7 (refuted in its "always a mapping" part): an arguments string that
parses as non-object JSON is stored as parsed — here the list `[1, 2]` —
so `ToolCall.arguments` is not a mapping, contradicting the declared
`Mapping[str, JsonValue]` type and the spec invariant. -/
theorem claim_C7_arguments_list_not_mapping :
    (parseOneToolCall 0 listArgsRawCall).arguments = .list [.int 1, .int 2] ∧
    ∀ kvs : List (String × Py), (parseOneToolCall 0 listArgsRawCall).arguments ≠ .dict kvs := by
  refine ⟨rfl, ?_⟩
  intro kvs h
  rw [show (parseOneToolCall 0 listArgsRawCall).arguments = .list [.int 1, .int 2]
    from rfl] at h
  exact Py.noConfusion h

end ExecAgent
